import Mathlib

/-
  Verification development for the modbus client library.

  Shallow embedding conventions:
  * Go machine integers are modelled as Nat. A byte field carries the
    side condition t < 256 and a uint16 field t < 65536 (collected in
    Query.WF); an arithmetic operation that wraps in Go is written with
    an explicit % 65536 or % 256.
  * Byte slices are List Nat (each element a byte value).
  * A fallible Go function returns Option or a result inductive.
  * Go slice indexing that can panic is modelled by an explicit
    out-of-bounds outcome (RespCheck.oob).
-/

/-! Function codes (Constants file of the source).  The current version of the
Constants file declaring FunctionMaskWriteRegister is not under src/, so the
value 0x16 for Mask Write Register is taken from the spec. -/

def FunctionReadCoils : Nat := 0x01

def FunctionReadDiscreteInputs : Nat := 0x02

def FunctionReadHoldingRegisters : Nat := 0x03

def FunctionReadInputRegisters : Nat := 0x04

def FunctionWriteSingleCoil : Nat := 0x05

def FunctionWriteSingleRegister : Nat := 0x06

def FunctionWriteMultipleCoils : Nat := 0x0F

def FunctionWriteMultipleRegisters : Nat := 0x10

/-- Modelled from the spec: the source file that declares the current
FunctionCode constants is missing from src/ (only the older Constants.go is
present); the spec lists Mask Write Register as function code 0x16. -/
def FunctionMaskWriteRegister : Nat := 0x16

def MaxRTUSize : Nat := 512

def MaxASCIISize : Nat := 512

def MaxTCPSize : Nat := 260

/-! The Query data model (src/Query.go). -/

structure Query where
  FunctionCode : Nat
  SlaveID : Nat
  Address : Nat
  Quantity : Nat
  Values : List Nat
deriving DecidableEq

/-- Well-formedness of the machine-integer fields: SlaveID and FunctionCode
are Go bytes, Address and Quantity are uint16, Values holds uint16 words. -/
def Query.WF (q : Query) : Prop :=
  q.SlaveID < 256 ∧ q.FunctionCode < 256 ∧ q.Address < 65536 ∧
    q.Quantity < 65536 ∧ ∀ v ∈ q.Values, v < 65536

instance (q : Query) : Decidable q.WF := by
  unfold Query.WF; infer_instance

-- isReadFunction (src/Query.go lines 318-330)
def isReadFunction (fCode : Nat) : Bool :=
  fCode == FunctionReadCoils || fCode == FunctionReadDiscreteInputs ||
    fCode == FunctionReadHoldingRegisters || fCode == FunctionReadInputRegisters

-- isWriteFunction (src/Query.go lines 335-349)
def isWriteFunction (fCode : Nat) : Bool :=
  fCode == FunctionWriteSingleCoil || fCode == FunctionWriteSingleRegister ||
    fCode == FunctionWriteMultipleCoils || fCode == FunctionWriteMultipleRegisters ||
    fCode == FunctionMaskWriteRegister

-- isWriteSingleFunction (src/Query.go lines 353-361)
def isWriteSingleFunction (fCode : Nat) : Bool :=
  fCode == FunctionWriteSingleCoil || fCode == FunctionWriteSingleRegister

-- isWriteMultipleFunction (src/Query.go lines 365-373)
def isWriteMultipleFunction (fCode : Nat) : Bool :=
  fCode == FunctionWriteMultipleCoils || fCode == FunctionWriteMultipleRegisters

/-- Query.IsValid (src/Query.go lines 22-70).  The Go function returns
(bool, error); the error component accompanies exactly the false results, so
only the Bool is modelled.  The switch falls into the default case (invalid
FunctionCode) exactly when the code is neither a read nor a write function.
Go computes q.Address+q.Quantity in uint16, hence the explicit % 65536. -/
def Query.IsValid (q : Query) : Bool :=
  if !(isReadFunction q.FunctionCode || isWriteFunction q.FunctionCode) then
    false
  else
    let maxQuantity : Nat :=
      if q.FunctionCode == FunctionReadCoils ||
          q.FunctionCode == FunctionReadDiscreteInputs ||
          q.FunctionCode == FunctionWriteMultipleCoils then 2000
      else if q.FunctionCode == FunctionReadHoldingRegisters ||
          q.FunctionCode == FunctionReadInputRegisters then 125
      else if q.FunctionCode == FunctionWriteMultipleRegisters then 123
      else 0
    let expectedLen : Nat :=
      if q.FunctionCode == FunctionWriteSingleCoil ||
          q.FunctionCode == FunctionWriteSingleRegister then 1
      else if q.FunctionCode == FunctionWriteMultipleCoils then
        q.Quantity / 16 + (if q.Quantity % 16 != 0 then 1 else 0)
      else if q.FunctionCode == FunctionWriteMultipleRegisters then q.Quantity
      else if q.FunctionCode == FunctionMaskWriteRegister then 2
      else 0
    if (isReadFunction q.FunctionCode || isWriteMultipleFunction q.FunctionCode)
        && (q.Quantity == 0 || (q.Address + q.Quantity) % 65536 > maxQuantity) then
      false
    else if isWriteFunction q.FunctionCode && q.Values.length != expectedLen then
      false
    else
      true

/-- dataBlock (src/Query.go lines 183-189): each uint16 becomes two
big-endian bytes. -/
def dataBlock : List Nat → List Nat
  | [] => []
  | v :: rest => v % 65536 / 256 :: v % 256 :: dataBlock rest

/-- dataBlockSuffix (src/Query.go lines 193-202): the uint16 values as
big-endian bytes, then one byte uint8(len(suffix)), then the suffix. -/
def dataBlockSuffix (suffix : List Nat) (values : List Nat) : List Nat :=
  dataBlock values ++ [suffix.length % 256] ++ suffix

/-- Query.data (src/Query.go lines 149-180), together with the query the
caller observes after the call returns.  data has a value receiver, but
Values is a Go slice, so the assignment q.Values[0] = 0xFF00 in the
WriteSingleCoil branch writes through the shared backing array and is visible
to the caller; the second component records that caller-visible query.
Values[0] is read with headD, and the slice expression values[0:numValues]
with take: both are reached only under IsValid, which makes the Go accesses
in-bounds (len(Values) = expectedLen > 0, numValues <= 2*len(Values)). -/
def Query.dataStep (q : Query) : Option (List Nat) × Query :=
  if !q.IsValid then (none, q)
  else if isWriteMultipleFunction q.FunctionCode then
    let values := dataBlock q.Values
    let values :=
      if q.FunctionCode == FunctionWriteMultipleCoils then
        values.take (q.Quantity / 8 + (if q.Quantity % 8 != 0 then 1 else 0))
      else values
    (some (dataBlockSuffix values [q.Address, q.Quantity]), q)
  else if isWriteSingleFunction q.FunctionCode then
    if q.FunctionCode == FunctionWriteSingleCoil && q.Values.headD 0 != 0 then
      (some (dataBlock [q.Address, 0xFF00]), { q with Values := q.Values.set 0 0xFF00 })
    else
      (some (dataBlock [q.Address, q.Values.headD 0]), q)
  else if q.FunctionCode == FunctionMaskWriteRegister then
    (some (dataBlock [q.Address, q.Values.headD 0, (q.Values.drop 1).headD 0]), q)
  else
    (some (dataBlock [q.Address, q.Quantity]), q)

/-- The bytes returned by Query.data. -/
def Query.data (q : Query) : Option (List Nat) := q.dataStep.1

/-- The caller-visible query after Query.data returns (slice aliasing). -/
def Query.dataMutated (q : Query) : Query := q.dataStep.2

/-- WriteSingleQuery (src/Query.go lines 222-235): only the constructed Query
is modelled; the accompanying error is the IsValid error. -/
def WriteSingleQuery (slaveID fCode address value : Nat) : Query :=
  { SlaveID := slaveID, FunctionCode := fCode, Address := address,
    Quantity := 0, Values := [value] }

/-- WriteSingleCoil (src/Query.go lines 276-282). -/
def WriteSingleCoil (slaveID address : Nat) (value : Bool) : Query :=
  WriteSingleQuery slaveID FunctionWriteSingleCoil address
    (if value then 0xFF00 else 0)

/-- WriteMultipleQuery (src/Query.go lines 239-253), Query component. -/
def WriteMultipleQuery (slaveID fCode address quantity : Nat)
    (values : List Nat) : Query :=
  { SlaveID := slaveID, FunctionCode := fCode, Address := address,
    Quantity := quantity, Values := values }

/-- ReadQuery (src/Query.go lines 205-218), Query component. -/
def ReadQuery (slaveID fCode address quantity : Nat) : Query :=
  { SlaveID := slaveID, FunctionCode := fCode, Address := address,
    Quantity := quantity, Values := [] }

/-! Spec-side definitions (for the refinement claims).  These follow the
words of the spec, to be compared with the definitions above, which are
translated from the source. -/

/-- Big-endian encoding of one 16-bit word, from the spec's payload table. -/
def specBe16 (v : Nat) : List Nat := [v % 65536 / 256, v % 256]

/-- The values sequence interpreted as big-endian 16-bit words (spec,
section 4.1). -/
def specBe16Words : List Nat → List Nat
  | [] => []
  | v :: rest => specBe16 v ++ specBe16Words rest

/-- Modelled from the spec, section 4.1 "Request payload": the
function-specific body bytes for each function, including the 0x05 value
coercion rule stated there.  The one-byte count fields are byte fields, so
they are encoded mod 256. -/
def specRequestPayload (q : Query) : Option (List Nat) :=
  if q.FunctionCode == 0x01 || q.FunctionCode == 0x02 ||
      q.FunctionCode == 0x03 || q.FunctionCode == 0x04 then
    some (specBe16 q.Address ++ specBe16 q.Quantity)
  else if q.FunctionCode == 0x05 then
    some (specBe16 q.Address ++
      specBe16 (if q.Values.headD 0 != 0 then 0xFF00 else 0x0000))
  else if q.FunctionCode == 0x06 then
    some (specBe16 q.Address ++ specBe16 (q.Values.headD 0))
  else if q.FunctionCode == 0x0F then
    some (specBe16 q.Address ++ specBe16 q.Quantity ++
      [(q.Quantity + 7) / 8 % 256] ++
      (specBe16Words q.Values).take ((q.Quantity + 7) / 8))
  else if q.FunctionCode == 0x10 then
    some (specBe16 q.Address ++ specBe16 q.Quantity ++
      [2 * q.Quantity % 256] ++ specBe16Words q.Values)
  else if q.FunctionCode == 0x16 then
    some (specBe16 q.Address ++ specBe16 (q.Values.headD 0) ++
      specBe16 ((q.Values.drop 1).headD 0))
  else
    none

/-- Modelled from the claim's reading of the spec validity table, with
address+quantity read as the exact (non-wrapping) integer sum. -/
def specValidExact (q : Query) : Bool :=
  if q.FunctionCode == 0x01 || q.FunctionCode == 0x02 then
    decide (1 ≤ q.Quantity ∧ q.Quantity ≤ 2000 ∧ q.Address + q.Quantity ≤ 2000)
  else if q.FunctionCode == 0x03 || q.FunctionCode == 0x04 then
    decide (1 ≤ q.Quantity ∧ q.Quantity ≤ 125 ∧ q.Address + q.Quantity ≤ 125)
  else if q.FunctionCode == 0x05 || q.FunctionCode == 0x06 then
    decide (q.Values.length = 1)
  else if q.FunctionCode == 0x0F then
    decide (1 ≤ q.Quantity ∧ q.Quantity ≤ 2000 ∧ q.Address + q.Quantity ≤ 2000 ∧
      q.Values.length = (q.Quantity + 15) / 16)
  else if q.FunctionCode == 0x10 then
    decide (1 ≤ q.Quantity ∧ q.Quantity ≤ 123 ∧ q.Address + q.Quantity ≤ 123 ∧
      q.Values.length = q.Quantity)
  else if q.FunctionCode == 0x16 then
    decide (q.Values.length = 2)
  else
    false

/-- The validity table as the code actually enforces it: the sums are the
wrapping 16-bit sums and the only stand-alone bound on quantity is
quantity >= 1 (the upper bounds on quantity alone are not enforced once the
sum wraps). -/
def specValidWrap (q : Query) : Bool :=
  if q.FunctionCode == 0x01 || q.FunctionCode == 0x02 then
    decide (1 ≤ q.Quantity ∧ (q.Address + q.Quantity) % 65536 ≤ 2000)
  else if q.FunctionCode == 0x03 || q.FunctionCode == 0x04 then
    decide (1 ≤ q.Quantity ∧ (q.Address + q.Quantity) % 65536 ≤ 125)
  else if q.FunctionCode == 0x05 || q.FunctionCode == 0x06 then
    decide (q.Values.length = 1)
  else if q.FunctionCode == 0x0F then
    decide (1 ≤ q.Quantity ∧ (q.Address + q.Quantity) % 65536 ≤ 2000 ∧
      q.Values.length = (q.Quantity + 15) / 16)
  else if q.FunctionCode == 0x10 then
    decide (1 ≤ q.Quantity ∧ (q.Address + q.Quantity) % 65536 ≤ 123 ∧
      q.Values.length = q.Quantity)
  else if q.FunctionCode == 0x16 then
    decide (q.Values.length = 2)
  else
    false

/-! Response validation (src/Query.go lines 74-145). -/

/-- The distinct error identities surfaced by the library (Constants file and
fmt.Errorf sites); the message strings are not modelled, only identity. -/
inductive MbError where
  | emptyResponse : MbError
  | slaveIDMismatch : MbError
  | modbusException : Nat → MbError
  | unknownException : MbError
  | writeDataMismatch : MbError
  | badResponseLength : MbError
  | responseLengthMismatch : MbError
  | badChecksum : MbError
  | badFraming : MbError
  | slaveZero : MbError
  | dataTooLong : MbError
  | handleClosed : MbError
  | handleAlreadyClosed : MbError
  | settingsMismatch : MbError
deriving DecidableEq

/-- Outcome of a response check: success, a typed error, or a Go runtime
panic from indexing past the end of a slice. -/
inductive RespCheck where
  | ok : RespCheck
  | err : MbError → RespCheck
  | oob : RespCheck
deriving DecidableEq

/-- The Modbus exception codes recognized by the switch in isValidResponse
(src/Query.go lines 86-107). -/
def knownExceptionCode (c : Nat) : Bool :=
  c == 0x01 || c == 0x02 || c == 0x03 || c == 0x04 || c == 0x05 ||
    c == 0x06 || c == 0x08 || c == 0x0A || c == 0x0B

/-- The write-echo loop of isValidResponse (src/Query.go lines 114-118):
for i := 0; i < 4; i++ with the short-circuit guard i >= len(response) before
the reads data[i] and response[2+i]; an in-range guard followed by an
out-of-range read is a Go panic, modelled as .oob.  The counter i and the
remaining iteration count k satisfy i + k = 4. -/
def writeEchoFrom (data response : List Nat) (i : Nat) : Nat → RespCheck
  | 0 => .ok
  | k + 1 =>
    if i ≥ response.length then .err .writeDataMismatch
    else
      match data.get? i, response.get? (2 + i) with
      | some db, some rb =>
        if db != rb then .err .writeDataMismatch
        else writeEchoFrom data response (i + 1) k
      | _, _ => .oob

/-- Query.isValidResponse (src/Query.go lines 74-145).  Each Go slice read is
modelled with get?; a none result where Go would read past the end is .oob.
The Go call data, _ := q.data() yields nil for an invalid query; indexing nil
panics, which coincides with .oob for the empty list. -/
def Query.isValidResponse (q : Query) (response : List Nat) : RespCheck :=
  if response.length == 0 then .err .emptyResponse
  else if response.headD 0 != q.SlaveID then .err .slaveIDMismatch
  else
    match response.get? 1 with
    | none => .oob
    | some b1 =>
      if b1 != q.FunctionCode then
        if b1 &&& 0x7f == q.FunctionCode then
          match response.get? 2 with
          | none => .oob
          | some exc =>
            if knownExceptionCode exc then .err (.modbusException exc)
            else .err .unknownException
        else .err .unknownException
      else
        let wres :=
          if isWriteFunction q.FunctionCode then
            writeEchoFrom (q.data.getD []) response 0 4
          else .ok
        if wres != RespCheck.ok then wres
        else if isReadFunction q.FunctionCode then
          let expectedLen : Nat :=
            if q.FunctionCode == FunctionReadCoils ||
                q.FunctionCode == FunctionReadDiscreteInputs then
              q.Quantity / 8 + (if q.Quantity % 8 != 0 then 1 else 0)
            else if q.FunctionCode == FunctionReadInputRegisters ||
                q.FunctionCode == FunctionReadHoldingRegisters then
              q.Quantity * 2
            else 0
          match response.get? 2 with
          | none => .oob
          | some cnt =>
            if cnt != expectedLen then .err .badResponseLength
            else if (response.drop 3).length != expectedLen then
              .err .responseLengthMismatch
            else .ok
        else .ok

/-! RTU framing (src/RTUPackager.go). -/

/-- One round of the inner loop of crc (src/RTUPackager.go lines 101-107);
all values are uint16, and the operations cannot leave [0, 65536). -/
def crcRound (c : Nat) : Nat :=
  if c &&& 0x0001 > 0 then (c >>> 1) ^^^ 0xA001 else c >>> 1

/-- The inner j-loop of crc, run 8 times. -/
def crcRounds : Nat → Nat → Nat
  | c, 0 => c
  | c, j + 1 => crcRounds (crcRound c) j

/-- crc (src/RTUPackager.go lines 96-110): seed 0xFFFF, xor in each byte,
then 8 shift rounds with polynomial 0xA001. -/
def crc (data : List Nat) : Nat :=
  data.foldl (fun c b => crcRounds (c ^^^ b) 8) 0xFFFF

/-- RTUPackager.generateADU (src/RTUPackager.go lines 23-52):
[slaveID, byte(functionCode), data..] with the CRC appended as a 2-byte
little-endian suffix; slave 0 and over-long packets are refused. -/
def RTUPackager.generateADU (q : Query) : Option (List Nat) :=
  match q.data with
  | none => none
  | some data =>
    if q.SlaveID == 0 then none
    else if data.length + 4 > MaxRTUSize then none
    else
      let pkt := q.SlaveID :: q.FunctionCode % 256 :: data
      let packetCrc := crc pkt
      some (pkt ++ [packetCrc % 256, packetCrc / 256 % 256])

/-- The receiver-side checksum verification of RTUPackager.Send
(src/RTUPackager.go lines 76-79): the crc of the first n-2 bytes must equal
the little-endian uint16 held in the last 2 bytes, else BadChecksum. -/
def rtuVerifyChecksum (r : List Nat) : Option MbError :=
  if crc (r.take (r.length - 2)) ==
      r.getD (r.length - 2) 0 + 256 * r.getD (r.length - 1) 0 then
    none
  else
    some .badChecksum

/-! ASCII framing (src/unnamed/part_006, current ASCIIPackager). -/

/-- lrc (src/unnamed/part_006 lines 136-144): the sum accumulates in uint8;
the result is uint8(-int8(sum)), i.e. the two's complement of the sum
mod 256. -/
def lrc (data : List Nat) : Nat :=
  (256 - data.foldl (fun s b => (s + b) % 256) 0) % 256

/-- One byte as two uppercase-hex digit characters.  hex.Encode emits
lowercase digits and generateADU then applies bytes.ToUpper, which only
changes the letter digits; the net encoding is modelled directly. -/
def hexByteUpper (b : Nat) : List Nat :=
  [ (if b % 256 / 16 < 10 then 48 + b % 256 / 16 else 55 + b % 256 / 16),
    (if b % 16 < 10 then 48 + b % 16 else 55 + b % 16) ]

def hexEncodeUpper : List Nat → List Nat
  | [] => []
  | b :: rest => hexByteUpper b ++ hexEncodeUpper rest

/-- ASCIIPackager.generateADU (src/unnamed/part_006 lines 33-69): the raw
packet [slaveID, byte(functionCode), data.., lrc] is hex-encoded and framed
with a leading 0x3A and a trailing CR LF; bytes.ToUpper leaves the frame
characters unchanged. -/
def ASCIIPackager.generateADU (q : Query) : Option (List Nat) :=
  match q.data with
  | none => none
  | some data =>
    if q.SlaveID == 0 then none
    else
      let rawPkt := q.SlaveID :: q.FunctionCode % 256 :: data
      let full := rawPkt ++ [lrc rawPkt]
      some (0x3A :: hexEncodeUpper full ++ [0x0D, 0x0A])

/-! ClientHandle lifecycle (src/Client.go lines 12-42). -/

/-- The caller-visible state of a ClientHandle: whether its queryQueue is
still set (Close sets it to nil). -/
structure ClientHandleState where
  queryQueueOpen : Bool
deriving DecidableEq

/-- ClientHandle.Send (src/Client.go lines 20-30): result, the state after
the call, and the list of queries submitted to the client by the call. -/
def ClientHandle.Send (st : ClientHandleState) (q : Query) :
    Except MbError Unit × ClientHandleState × List Query :=
  if !st.queryQueueOpen then (.error .handleClosed, st, [])
  else (.ok (), st, [q])

/-- ClientHandle.Close (src/Client.go lines 34-42): the first call closes the
queue and nils it out; any later call sees the nil queue and fails. -/
def ClientHandle.Close (st : ClientHandleState) :
    Except MbError Unit × ClientHandleState :=
  if !st.queryQueueOpen then (.error .handleAlreadyClosed, st)
  else (.ok (), ⟨false⟩)

/-! ClientManager registry (src/ClientManager.go lines 56-123). -/

/-- ConnectionSettings (src/Client.go lines 49-54); Mode is the uint8
enumeration of Constants.go, Timeout a Duration in nanoseconds. -/
structure ConnectionSettings where
  Mode : Nat
  Host : String
  Baud : Nat
  Timeout : Nat
deriving DecidableEq

/-- A client in the registry map is represented by the settings it was
started with. -/
structure ClientManagerState where
  clients : List (String × ConnectionSettings)
  pendingDeletes : List String
deriving DecidableEq

def lookupClient (host : String) :
    List (String × ConnectionSettings) → Option ConnectionSettings
  | [] => none
  | (h, cs) :: rest => if h == host then some cs else lookupClient host rest

def eraseClient (host : String) :
    List (String × ConnectionSettings) → List (String × ConnectionSettings)
  | [] => []
  | (h, cs) :: rest =>
    if h == host then rest else (h, cs) :: eraseClient host rest

/-- The result sent back on a clientRequest response channel: either a
ClientHandle bound to the client with the given settings, or an error. -/
inductive ClientResult where
  | handle : ConnectionSettings → ClientResult
  | err : MbError → ClientResult
deriving DecidableEq

/-- The drain loop of handleClientRequest (src/ClientManager.go lines
94-108): pending deleteClient messages are consumed one at a time; a delete
for the requested host means the client is restarting, so the loop returns
with the map untouched for that entry; other deletes are applied. -/
def drainDeletes (host : String) (clients : List (String × ConnectionSettings)) :
    List String → List (String × ConnectionSettings) × List String
  | [] => (clients, [])
  | d :: rest =>
    if d == host then (clients, rest)
    else drainDeletes host (eraseClient d clients) rest

/-- clientManager.handleClientRequest (src/ClientManager.go lines 74-123):
a request for an existing host with different settings is answered with the
settings-mismatch error and nothing else happens; matching settings yield a
handle (after draining deletes); an unknown host creates a new client. -/
def handleClientRequest (st : ClientManagerState) (req : ConnectionSettings) :
    ClientManagerState × ClientResult :=
  match lookupClient req.Host st.clients with
  | some cl =>
    if cl != req then (st, .err .settingsMismatch)
    else
      let res := drainDeletes req.Host st.clients st.pendingDeletes
      ({ clients := res.1, pendingDeletes := res.2 }, .handle cl)
  | none =>
    ({ st with clients := (req.Host, req) :: st.clients }, .handle req)

/-! Theorems. -/
/-- Shared characterization: Query.IsValid is exactly the validity table with
wrapping 16-bit sums and no stand-alone upper bound on quantity. -/
theorem isValid_iff_wrap (q : Query) : q.IsValid = true ↔ specValidWrap q = true := by
  obtain ⟨fc, sid, a, qty, vals⟩ := q
  by_cases h1 : fc = 1
  · subst h1
    simp [Query.IsValid, specValidWrap, isReadFunction, isWriteFunction,
      isWriteSingleFunction, isWriteMultipleFunction, FunctionReadCoils,
      FunctionReadDiscreteInputs, FunctionReadHoldingRegisters,
      FunctionReadInputRegisters, FunctionWriteSingleCoil,
      FunctionWriteSingleRegister, FunctionWriteMultipleCoils,
      FunctionWriteMultipleRegisters, FunctionMaskWriteRegister]
    omega
  by_cases h2 : fc = 2
  · subst h2
    simp [Query.IsValid, specValidWrap, isReadFunction, isWriteFunction,
      isWriteSingleFunction, isWriteMultipleFunction, FunctionReadCoils,
      FunctionReadDiscreteInputs, FunctionReadHoldingRegisters,
      FunctionReadInputRegisters, FunctionWriteSingleCoil,
      FunctionWriteSingleRegister, FunctionWriteMultipleCoils,
      FunctionWriteMultipleRegisters, FunctionMaskWriteRegister]
    omega
  by_cases h3 : fc = 3
  · subst h3
    simp [Query.IsValid, specValidWrap, isReadFunction, isWriteFunction,
      isWriteSingleFunction, isWriteMultipleFunction, FunctionReadCoils,
      FunctionReadDiscreteInputs, FunctionReadHoldingRegisters,
      FunctionReadInputRegisters, FunctionWriteSingleCoil,
      FunctionWriteSingleRegister, FunctionWriteMultipleCoils,
      FunctionWriteMultipleRegisters, FunctionMaskWriteRegister]
    omega
  by_cases h4 : fc = 4
  · subst h4
    simp [Query.IsValid, specValidWrap, isReadFunction, isWriteFunction,
      isWriteSingleFunction, isWriteMultipleFunction, FunctionReadCoils,
      FunctionReadDiscreteInputs, FunctionReadHoldingRegisters,
      FunctionReadInputRegisters, FunctionWriteSingleCoil,
      FunctionWriteSingleRegister, FunctionWriteMultipleCoils,
      FunctionWriteMultipleRegisters, FunctionMaskWriteRegister]
    omega
  by_cases h5 : fc = 5
  · subst h5
    simp [Query.IsValid, specValidWrap, isReadFunction, isWriteFunction,
      isWriteSingleFunction, isWriteMultipleFunction, FunctionReadCoils,
      FunctionReadDiscreteInputs, FunctionReadHoldingRegisters,
      FunctionReadInputRegisters, FunctionWriteSingleCoil,
      FunctionWriteSingleRegister, FunctionWriteMultipleCoils,
      FunctionWriteMultipleRegisters, FunctionMaskWriteRegister]
  by_cases h6 : fc = 6
  · subst h6
    simp [Query.IsValid, specValidWrap, isReadFunction, isWriteFunction,
      isWriteSingleFunction, isWriteMultipleFunction, FunctionReadCoils,
      FunctionReadDiscreteInputs, FunctionReadHoldingRegisters,
      FunctionReadInputRegisters, FunctionWriteSingleCoil,
      FunctionWriteSingleRegister, FunctionWriteMultipleCoils,
      FunctionWriteMultipleRegisters, FunctionMaskWriteRegister]
  by_cases h15 : fc = 15
  · subst h15
    simp [Query.IsValid, specValidWrap, isReadFunction, isWriteFunction,
      isWriteSingleFunction, isWriteMultipleFunction, FunctionReadCoils,
      FunctionReadDiscreteInputs, FunctionReadHoldingRegisters,
      FunctionReadInputRegisters, FunctionWriteSingleCoil,
      FunctionWriteSingleRegister, FunctionWriteMultipleCoils,
      FunctionWriteMultipleRegisters, FunctionMaskWriteRegister]
    by_cases hm : qty % 16 = 0 <;> simp [hm] <;> omega
  by_cases h16 : fc = 16
  · subst h16
    simp [Query.IsValid, specValidWrap, isReadFunction, isWriteFunction,
      isWriteSingleFunction, isWriteMultipleFunction, FunctionReadCoils,
      FunctionReadDiscreteInputs, FunctionReadHoldingRegisters,
      FunctionReadInputRegisters, FunctionWriteSingleCoil,
      FunctionWriteSingleRegister, FunctionWriteMultipleCoils,
      FunctionWriteMultipleRegisters, FunctionMaskWriteRegister]
    omega
  by_cases h22 : fc = 22
  · subst h22
    simp [Query.IsValid, specValidWrap, isReadFunction, isWriteFunction,
      isWriteSingleFunction, isWriteMultipleFunction, FunctionReadCoils,
      FunctionReadDiscreteInputs, FunctionReadHoldingRegisters,
      FunctionReadInputRegisters, FunctionWriteSingleCoil,
      FunctionWriteSingleRegister, FunctionWriteMultipleCoils,
      FunctionWriteMultipleRegisters, FunctionMaskWriteRegister]
  simp [Query.IsValid, specValidWrap, isReadFunction, isWriteFunction,
    isWriteSingleFunction, isWriteMultipleFunction, FunctionReadCoils,
    FunctionReadDiscreteInputs, FunctionReadHoldingRegisters,
    FunctionReadInputRegisters, FunctionWriteSingleCoil,
    FunctionWriteSingleRegister, FunctionWriteMultipleCoils,
    FunctionWriteMultipleRegisters, FunctionMaskWriteRegister,
    h1, h2, h3, h4, h5, h6, h15, h16, h22]

/-- C2 counterexample: the claim reads address+quantity as the exact integer
sum, but the code adds in uint16, which wraps: ReadCoils with address 65535
and quantity 2001 has exact sum 67536 > 2000 (and quantity > 2000), yet
IsValid accepts it because (65535 + 2001) % 65536 = 2000. -/
theorem isValid_exact_sum_counterexample :
    (Query.mk FunctionReadCoils 1 65535 2001 []).IsValid = true ∧
    specValidExact (Query.mk FunctionReadCoils 1 65535 2001 []) = false := by
  decide

/-- C2 (amended): IsValid returns true exactly when the spec validity table
holds with address+quantity read as the wrapping 16-bit sum (address +
quantity) % 65536, quantity constrained below only (quantity >= 1), and the
function-specific length requirements unchanged. -/
theorem isValid_iff_spec_table_wrap (q : Query) :
    q.IsValid = true ↔ specValidWrap q = true :=
  isValid_iff_wrap q

/-- C2 witness. -/
theorem isValid_iff_spec_table_wrap_witness :
    specValidWrap (Query.mk FunctionReadCoils 1 1 1 []) = true :=
  (isValid_iff_spec_table_wrap (Query.mk FunctionReadCoils 1 1 1 [])).mp (by decide)

/-- C6: for a valid WriteSingleCoil query, data emits the address followed by
0xFF00 when Values[0] is non-zero and 0x0000 when it is zero, and the
WriteSingleCoil constructor maps true to Values = [0xFF00] and false to
Values = [0x0000]. -/
theorem write_single_coil_coercion :
    (∀ q : Query, q.IsValid = true → q.FunctionCode = FunctionWriteSingleCoil →
      (q.Values.headD 0 ≠ 0 →
        q.data = some [q.Address % 65536 / 256, q.Address % 256, 0xFF, 0x00]) ∧
      (q.Values.headD 0 = 0 →
        q.data = some [q.Address % 65536 / 256, q.Address % 256, 0x00, 0x00])) ∧
    (∀ slaveID address : Nat,
      (WriteSingleCoil slaveID address true).Values = [0xFF00] ∧
      (WriteSingleCoil slaveID address false).Values = [0x0000]) := by
  constructor
  · intro q hv hfc
    have hlen : q.Values.length = 1 := by
      have hw := (isValid_iff_wrap q).mp hv
      simp [specValidWrap, hfc, FunctionWriteSingleCoil] at hw
      exact hw
    obtain ⟨v, hvals⟩ : ∃ v, q.Values = [v] := by
      cases hq : q.Values with
      | nil => simp [hq] at hlen
      | cons v t =>
        cases t with
        | nil => exact ⟨v, rfl⟩
        | cons w t2 => simp [hq] at hlen
    constructor
    · intro h0
      rw [hvals] at h0
      simp only [List.headD] at h0
      simp [Query.data, Query.dataStep, hv, hfc, hvals, isWriteMultipleFunction,
        isWriteSingleFunction, FunctionWriteMultipleCoils,
        FunctionWriteMultipleRegisters, FunctionWriteSingleCoil,
        FunctionWriteSingleRegister, dataBlock, h0]
    · intro h0
      rw [hvals] at h0
      simp only [List.headD] at h0
      simp [Query.data, Query.dataStep, hv, hfc, hvals, isWriteMultipleFunction,
        isWriteSingleFunction, FunctionWriteMultipleCoils,
        FunctionWriteMultipleRegisters, FunctionWriteSingleCoil,
        FunctionWriteSingleRegister, dataBlock, h0]
  · intro slaveID address
    constructor <;> rfl

/-- C6 witness. -/
theorem write_single_coil_coercion_witness :
    (Query.mk FunctionWriteSingleCoil 1 1 0 [1]).data = some [0, 1, 0xFF, 0] ∧
    (WriteSingleCoil 1 1 true).Values = [0xFF00] :=
  ⟨(write_single_coil_coercion.1 (Query.mk FunctionWriteSingleCoil 1 1 0 [1])
      (by decide) rfl).1 (by decide),
   (write_single_coil_coercion.2 1 1).1⟩

/-- C7: closing an open handle succeeds and closes it; Send on a closed
handle fails with the handle-closed error and submits nothing; Close on a
closed handle fails with the already-closed error and changes nothing. -/
theorem client_handle_lifecycle :
    ∀ st : ClientHandleState, st.queryQueueOpen = true →
      (ClientHandle.Close st).1 = .ok () ∧
      (ClientHandle.Close st).2.queryQueueOpen = false ∧
      (∀ q, (ClientHandle.Send (ClientHandle.Close st).2 q).1 =
          .error .handleClosed ∧
        (ClientHandle.Send (ClientHandle.Close st).2 q).2.2 = []) ∧
      (∀ st2 : ClientHandleState, st2.queryQueueOpen = false →
        (ClientHandle.Close st2).1 = .error .handleAlreadyClosed ∧
        (ClientHandle.Close st2).2 = st2) := by
  intro st h
  refine ⟨?_, ?_, ?_, ?_⟩
  · simp [ClientHandle.Close, h]
  · simp [ClientHandle.Close, h]
  · intro q
    constructor <;> simp [ClientHandle.Close, ClientHandle.Send, h]
  · intro st2 h2
    constructor <;> simp [ClientHandle.Close, h2]

/-- C7 witness. -/
theorem client_handle_lifecycle_witness :
    (ClientHandle.Close ⟨true⟩).1 = .ok () ∧
    (ClientHandle.Close ⟨true⟩).2.queryQueueOpen = false :=
  ⟨(client_handle_lifecycle ⟨true⟩ rfl).1, (client_handle_lifecycle ⟨true⟩ rfl).2.1⟩

/-- C8: a request for a host already in the registry whose settings differ in
any field is answered with the settings-mismatch error and the state (map and
pending deletes) is returned unchanged; differing in any field is exactly
structural inequality of ConnectionSettings. -/
theorem settings_mismatch_on_reacquire :
    (∀ (st : ClientManagerState) (req cs : ConnectionSettings),
      lookupClient req.Host st.clients = some cs → cs ≠ req →
        handleClientRequest st req = (st, .err .settingsMismatch)) ∧
    (∀ a b : ConnectionSettings, a ≠ b ↔
      a.Mode ≠ b.Mode ∨ a.Host ≠ b.Host ∨ a.Baud ≠ b.Baud ∨
        a.Timeout ≠ b.Timeout) := by
  constructor
  · intro st req cs hlook hne
    simp [handleClientRequest, hlook, hne]
  · intro a b
    obtain ⟨am, ah, ab, at_⟩ := a
    obtain ⟨bm, bh, bb, bt⟩ := b
    simp only [ne_eq, ConnectionSettings.mk.injEq, not_and]
    constructor
    · intro h
      by_contra hcon
      push_neg at hcon
      obtain ⟨hm, hh, hbb, ht⟩ := hcon
      exact h hm hh hbb ht
    · intro h hm hh hbb ht
      rcases h with h | h | h | h <;> exact h (by simp_all)
  
/-- C8 witness. -/
theorem settings_mismatch_on_reacquire_witness :
    handleClientRequest
        ⟨[("/dev/ttyS0", ⟨1, "/dev/ttyS0", 9600, 500⟩)], []⟩
        ⟨1, "/dev/ttyS0", 19200, 500⟩ =
      (⟨[("/dev/ttyS0", ⟨1, "/dev/ttyS0", 9600, 500⟩)], []⟩,
        .err .settingsMismatch) :=
  settings_mismatch_on_reacquire.1
    ⟨[("/dev/ttyS0", ⟨1, "/dev/ttyS0", 9600, 500⟩)], []⟩
    ⟨1, "/dev/ttyS0", 19200, 500⟩ ⟨1, "/dev/ttyS0", 9600, 500⟩
    (by decide) (by decide)

/-- C9: isValidResponse indexes past the end of short responses instead of
returning a typed error: a length-1 response with a matching slave id reads
index 1; a length-2 response with matching slave id and the function code
with bit 0x80 set reads index 2; and the write-echo loop on a matching write
response of length 4 or 5 reads past the end. -/
theorem isValidResponse_short_response_oob :
    (Query.mk FunctionReadCoils 1 0 1 []).isValidResponse [1] = .oob ∧
    (Query.mk FunctionReadCoils 1 0 1 []).isValidResponse [1, 0x81] = .oob ∧
    (Query.mk FunctionWriteSingleRegister 1 1 0 [5]).isValidResponse
      [1, 6, 0, 1] = .oob ∧
    (Query.mk FunctionWriteSingleRegister 1 1 0 [5]).isValidResponse
      [1, 6, 0, 1, 0] = .oob := by
  decide

theorem specBe16Words_eq_dataBlock (l : List Nat) : specBe16Words l = dataBlock l := by
  induction l with
  | nil => rfl
  | cons v t ih => simp [specBe16Words, dataBlock, specBe16, ih]

theorem dataBlock_length (l : List Nat) : (dataBlock l).length = 2 * l.length := by
  induction l with
  | nil => rfl
  | cons v t ih => simp [dataBlock, ih]; omega

/-- C1: for every valid query, data returns exactly the function-specific
body bytes of the spec payload table; in particular the WriteMultipleCoils
query slave 1, address 1, quantity 16, Values [0x8180] yields
00 01 00 10 02 81 80. -/
theorem data_matches_spec_payload :
    (∀ q : Query, q.IsValid = true → q.data = specRequestPayload q) ∧
    (Query.mk FunctionWriteMultipleCoils 1 1 16 [0x8180]).data =
      some [0x00, 0x01, 0x00, 0x10, 0x02, 0x81, 0x80] := by
  constructor
  · intro q hv
    have hw := (isValid_iff_wrap q).mp hv
    obtain ⟨fc, sid, a, qty, vals⟩ := q
    by_cases h1 : fc = 1
    · subst h1
      simp [Query.data, Query.dataStep, hv, isWriteMultipleFunction,
        isWriteSingleFunction, FunctionWriteMultipleCoils,
        FunctionWriteMultipleRegisters, FunctionWriteSingleCoil,
        FunctionWriteSingleRegister, FunctionMaskWriteRegister,
        specRequestPayload, dataBlock, specBe16]
    by_cases h2 : fc = 2
    · subst h2
      simp [Query.data, Query.dataStep, hv, isWriteMultipleFunction,
        isWriteSingleFunction, FunctionWriteMultipleCoils,
        FunctionWriteMultipleRegisters, FunctionWriteSingleCoil,
        FunctionWriteSingleRegister, FunctionMaskWriteRegister,
        specRequestPayload, dataBlock, specBe16]
    by_cases h3 : fc = 3
    · subst h3
      simp [Query.data, Query.dataStep, hv, isWriteMultipleFunction,
        isWriteSingleFunction, FunctionWriteMultipleCoils,
        FunctionWriteMultipleRegisters, FunctionWriteSingleCoil,
        FunctionWriteSingleRegister, FunctionMaskWriteRegister,
        specRequestPayload, dataBlock, specBe16]
    by_cases h4 : fc = 4
    · subst h4
      simp [Query.data, Query.dataStep, hv, isWriteMultipleFunction,
        isWriteSingleFunction, FunctionWriteMultipleCoils,
        FunctionWriteMultipleRegisters, FunctionWriteSingleCoil,
        FunctionWriteSingleRegister, FunctionMaskWriteRegister,
        specRequestPayload, dataBlock, specBe16]
    by_cases h5 : fc = 5
    · subst h5
      simp only [specValidWrap, FunctionWriteSingleCoil] at hw
      norm_num at hw
      obtain ⟨v, hvals⟩ : ∃ v, vals = [v] := by
        cases vals with
        | nil => simp at hw
        | cons v t =>
          cases t with
          | nil => exact ⟨v, rfl⟩
          | cons w t2 => simp at hw
      subst hvals
      by_cases h0 : v = 0
      · subst h0
        simp [Query.data, Query.dataStep, hv, isWriteMultipleFunction,
          isWriteSingleFunction, FunctionWriteMultipleCoils,
          FunctionWriteMultipleRegisters, FunctionWriteSingleCoil,
          FunctionWriteSingleRegister, FunctionMaskWriteRegister,
          specRequestPayload, dataBlock, specBe16]
      · simp [Query.data, Query.dataStep, hv, isWriteMultipleFunction,
          isWriteSingleFunction, FunctionWriteMultipleCoils,
          FunctionWriteMultipleRegisters, FunctionWriteSingleCoil,
          FunctionWriteSingleRegister, FunctionMaskWriteRegister,
          specRequestPayload, dataBlock, specBe16, h0]
    by_cases h6 : fc = 6
    · subst h6
      simp [Query.data, Query.dataStep, hv, isWriteMultipleFunction,
        isWriteSingleFunction, FunctionWriteMultipleCoils,
        FunctionWriteMultipleRegisters, FunctionWriteSingleCoil,
        FunctionWriteSingleRegister, FunctionMaskWriteRegister,
        specRequestPayload, dataBlock, specBe16]
    by_cases h15 : fc = 15
    · subst h15
      simp only [specValidWrap, FunctionWriteMultipleCoils] at hw
      norm_num at hw
      obtain ⟨hq1, hsum, hlen⟩ := hw
      have hn : qty / 8 + (if qty % 8 = 0 then 0 else 1) = (qty + 7) / 8 := by
        by_cases hm8 : qty % 8 = 0 <;> simp [hm8] <;> omega
      have hmin : (qty / 8 + (if qty % 8 = 0 then 0 else 1)) ⊓ (dataBlock vals).length
          = qty / 8 + (if qty % 8 = 0 then 0 else 1) := by
        rw [dataBlock_length, hlen]
        by_cases hm8 : qty % 8 = 0 <;> simp [hm8] <;> omega
      simp [Query.data, Query.dataStep, hv, isWriteMultipleFunction,
        isWriteSingleFunction, FunctionWriteMultipleCoils,
        FunctionWriteMultipleRegisters, FunctionWriteSingleCoil,
        FunctionWriteSingleRegister, FunctionMaskWriteRegister,
        specRequestPayload, dataBlockSuffix, specBe16Words_eq_dataBlock]
      rw [hmin, hn]
      simp [dataBlock, specBe16]
    by_cases h16 : fc = 16
    · subst h16
      simp only [specValidWrap, FunctionWriteMultipleRegisters] at hw
      norm_num at hw
      obtain ⟨hq1, hsum, hlen⟩ := hw
      simp [Query.data, Query.dataStep, hv, isWriteMultipleFunction,
        isWriteSingleFunction, FunctionWriteMultipleCoils,
        FunctionWriteMultipleRegisters, FunctionWriteSingleCoil,
        FunctionWriteSingleRegister, FunctionMaskWriteRegister,
        specRequestPayload, dataBlockSuffix, specBe16Words_eq_dataBlock,
        dataBlock_length, hlen, dataBlock, specBe16]
    by_cases h22 : fc = 22
    · subst h22
      simp only [specValidWrap, FunctionMaskWriteRegister] at hw
      norm_num at hw
      obtain ⟨v, w, hvals⟩ : ∃ v w, vals = [v, w] := by
        cases vals with
        | nil => simp at hw
        | cons v t =>
          cases t with
          | nil => simp at hw
          | cons w t2 =>
            cases t2 with
            | nil => exact ⟨v, w, rfl⟩
            | cons x t3 => simp at hw
      subst hvals
      simp [Query.data, Query.dataStep, hv, isWriteMultipleFunction,
        isWriteSingleFunction, FunctionWriteMultipleCoils,
        FunctionWriteMultipleRegisters, FunctionWriteSingleCoil,
        FunctionWriteSingleRegister, FunctionMaskWriteRegister,
        specRequestPayload, dataBlock, specBe16]
    · exfalso
      have := (isValid_iff_wrap (Query.mk fc sid a qty vals)).mp hv
      simp [specValidWrap, h1, h2, h3, h4, h5, h6, h15, h16, h22] at this
  · decide

/-- C1 witness. -/
theorem data_matches_spec_payload_witness :
    (Query.mk FunctionWriteMultipleCoils 1 1 16 [0x8180]).IsValid = true ∧
    (Query.mk FunctionWriteMultipleCoils 1 1 16 [0x8180]).data =
      specRequestPayload (Query.mk FunctionWriteMultipleCoils 1 1 16 [0x8180]) :=
  ⟨by decide,
    data_matches_spec_payload.1 (Query.mk FunctionWriteMultipleCoils 1 1 16 [0x8180])
      (by decide)⟩

theorem exists_six_cons (r : List Nat) (h : 6 ≤ r.length) :
    ∃ a b c d e f t, r = a :: b :: c :: d :: e :: f :: t := by
  rcases r with _ | ⟨a, _ | ⟨b, _ | ⟨c, _ | ⟨d, _ | ⟨e, _ | ⟨f, t⟩⟩⟩⟩⟩⟩ <;>
    first
      | exact ⟨_, _, _, _, _, _, _, rfl⟩
      | simp at h

theorem exists_four_cons (l : List Nat) (h : 4 ≤ l.length) :
    ∃ a b c d t, l = a :: b :: c :: d :: t := by
  rcases l with _ | ⟨a, _ | ⟨b, _ | ⟨c, _ | ⟨d, t⟩⟩⟩⟩ <;>
    first
      | exact ⟨_, _, _, _, _, rfl⟩
      | simp at h

/-- For a valid write query, the request body has at least 4 bytes. -/
theorem data_write_length (q : Query) (hv : q.IsValid = true)
    (hwf : isWriteFunction q.FunctionCode = true) :
    ∃ d, q.data = some d ∧ 4 ≤ d.length := by
  have hfc : q.FunctionCode = 5 ∨ q.FunctionCode = 6 ∨ q.FunctionCode = 15 ∨
      q.FunctionCode = 16 ∨ q.FunctionCode = 22 := by
    simp [isWriteFunction, FunctionWriteSingleCoil, FunctionWriteSingleRegister,
      FunctionWriteMultipleCoils, FunctionWriteMultipleRegisters,
      FunctionMaskWriteRegister] at hwf
    tauto
  rcases hfc with h | h | h | h | h <;>
      simp only [Query.data, Query.dataStep, hv, h, Bool.not_true,
        isWriteMultipleFunction, isWriteSingleFunction, FunctionWriteMultipleCoils,
        FunctionWriteMultipleRegisters, FunctionWriteSingleCoil,
        FunctionWriteSingleRegister, FunctionMaskWriteRegister] <;>
    norm_num
  · split <;> simp [dataBlock]
  · simp [dataBlock]
  · simp [dataBlockSuffix, dataBlock]
  · simp [dataBlockSuffix, dataBlock]
  · simp [dataBlock]

/-- C3: for a valid write query and a response whose first two bytes echo the
slave id and function code and which is long enough to hold the echo,
isValidResponse returns WriteDataMismatch exactly when bytes 2..6 of the
response differ from the first 4 bytes of the request body, and returns
success when they agree. -/
theorem isValidResponse_write_echo :
    ∀ (q : Query) (r : List Nat), q.IsValid = true →
      isWriteFunction q.FunctionCode = true →
      r.get? 0 = some q.SlaveID → r.get? 1 = some q.FunctionCode →
      6 ≤ r.length →
      (q.isValidResponse r = .err .writeDataMismatch ↔
        (r.drop 2).take 4 ≠ (q.data.getD []).take 4) ∧
      ((r.drop 2).take 4 = (q.data.getD []).take 4 →
        q.isValidResponse r = .ok) := by
  intro q r hv hwf h0 h1 hlen
  obtain ⟨d, hd, hdlen⟩ := data_write_length q hv hwf
  obtain ⟨d0, d1, d2, d3, dt, hdl⟩ := exists_four_cons d hdlen
  obtain ⟨r0, r1, r2, r3, r4, r5, rt, hrl⟩ := exists_six_cons r hlen
  subst hrl hdl
  simp only [List.get?] at h0 h1
  injection h0 with h0
  injection h1 with h1
  subst h0 h1
  have hread : isReadFunction q.FunctionCode = false := by
    simp [isWriteFunction, FunctionWriteSingleCoil, FunctionWriteSingleRegister,
      FunctionWriteMultipleCoils, FunctionWriteMultipleRegisters,
      FunctionMaskWriteRegister] at hwf
    simp [isReadFunction, FunctionReadCoils, FunctionReadDiscreteInputs,
      FunctionReadHoldingRegisters, FunctionReadInputRegisters]
    omega
  by_cases e0 : d0 = r2 <;> by_cases e1 : d1 = r3 <;> by_cases e2 : d2 = r4 <;>
      by_cases e3 : d3 = r5 <;>
    simp [Query.isValidResponse, hwf, hread, hd, writeEchoFrom, e0, e1, e2, e3] <;>
    tauto

/-- C3 witness. -/
theorem isValidResponse_write_echo_witness :
    (Query.mk FunctionWriteSingleRegister 1 1 0 [5]).isValidResponse
      [1, 6, 0, 1, 0, 5] = .ok :=
  (isValidResponse_write_echo (Query.mk FunctionWriteSingleRegister 1 1 0 [5])
    [1, 6, 0, 1, 0, 5] (by decide) (by decide) (by decide) (by decide)
    (by decide)).2 (by decide)

theorem data_some_of_valid (q : Query) (hv : q.IsValid = true) :
    ∃ d, q.data = some d := by
  simp only [Query.data, Query.dataStep, hv, Bool.not_true, Bool.false_eq_true,
    if_false]
  repeat' split
  all_goals exact ⟨_, rfl⟩

/-- C5: for every valid query with non-zero slave id, the ASCII ADU is the
colon character, the uppercase hex encoding of [slaveID, functionCode, body,
LRC], then CR LF; and the LRC over 01 01 00 01 00 01 is 0xFC. -/
theorem ascii_adu_format :
    (∀ q : Query, q.IsValid = true → q.SlaveID ≠ 0 →
      ∃ d, q.data = some d ∧
        ASCIIPackager.generateADU q =
          some (0x3A :: hexEncodeUpper
            ((q.SlaveID :: q.FunctionCode % 256 :: d) ++
              [lrc (q.SlaveID :: q.FunctionCode % 256 :: d)]) ++ [0x0D, 0x0A])) ∧
    lrc [0x01, 0x01, 0x00, 0x01, 0x00, 0x01] = 0xFC := by
  constructor
  · intro q hv hs
    obtain ⟨d, hd⟩ := data_some_of_valid q hv
    refine ⟨d, hd, ?_⟩
    simp [ASCIIPackager.generateADU, hd, hs]
  · decide

/-- C5 witness. -/
theorem ascii_adu_format_witness :
    ∃ d, (Query.mk FunctionReadCoils 1 1 1 []).data = some d ∧
      ASCIIPackager.generateADU (Query.mk FunctionReadCoils 1 1 1 []) =
        some (0x3A :: hexEncodeUpper ((1 :: 1 :: d) ++ [lrc (1 :: 1 :: d)]) ++
          [0x0D, 0x0A]) :=
  ascii_adu_format.1 (Query.mk FunctionReadCoils 1 1 1 []) (by decide) (by decide)

/-- C10: on a valid WriteSingleCoil query whose Values[0] is non-zero and not
already 0xFF00, data overwrites the caller's Values[0] with 0xFF00 through
the shared slice backing array, observable after the call; the other fields
of the caller's query are never changed by data. -/
theorem data_mutates_values_aliasing :
    (∀ (q : Query) (v : Nat), q.IsValid = true →
      q.FunctionCode = FunctionWriteSingleCoil →
      q.Values.get? 0 = some v → v ≠ 0 → v ≠ 0xFF00 →
        (q.dataMutated).Values.get? 0 = some 0xFF00 ∧
        (q.dataMutated).Values.get? 0 ≠ q.Values.get? 0) ∧
    (∀ q : Query,
      (q.dataMutated).FunctionCode = q.FunctionCode ∧
      (q.dataMutated).SlaveID = q.SlaveID ∧
      (q.dataMutated).Address = q.Address ∧
      (q.dataMutated).Quantity = q.Quantity) := by
  constructor
  · intro q v hv hfc hv0 hnz hnff
    have hlen : q.Values.length = 1 := by
      have hw := (isValid_iff_wrap q).mp hv
      simp [specValidWrap, hfc, FunctionWriteSingleCoil] at hw
      exact hw
    obtain ⟨w, hvals⟩ : ∃ w, q.Values = [w] := by
      cases hq : q.Values with
      | nil => simp [hq] at hlen
      | cons w t =>
        cases t with
        | nil => exact ⟨w, rfl⟩
        | cons x t2 => simp [hq] at hlen
    rw [hvals] at hv0
    simp only [List.get?] at hv0
    injection hv0 with hv0
    subst hv0
    constructor
    · simp [Query.dataMutated, Query.dataStep, hv, hfc, hvals,
        isWriteMultipleFunction, isWriteSingleFunction,
        FunctionWriteMultipleCoils, FunctionWriteMultipleRegisters,
        FunctionWriteSingleCoil, FunctionWriteSingleRegister, hnz]
    · simp [Query.dataMutated, Query.dataStep, hv, hfc, hvals,
        isWriteMultipleFunction, isWriteSingleFunction,
        FunctionWriteMultipleCoils, FunctionWriteMultipleRegisters,
        FunctionWriteSingleCoil, FunctionWriteSingleRegister, hnz]
      omega
  · intro q
    simp only [Query.dataMutated, Query.dataStep]
    repeat' split
    all_goals simp

/-- C10 witness. -/
theorem data_mutates_values_aliasing_witness :
    ((Query.mk FunctionWriteSingleCoil 1 1 0 [1]).dataMutated).Values.get? 0 =
      some 0xFF00 :=
  (data_mutates_values_aliasing.1 (Query.mk FunctionWriteSingleCoil 1 1 0 [1]) 1
    (by decide) rfl (by decide) (by decide) (by decide)).1

theorem take_length_append (l m : List Nat) : (l ++ m).take l.length = l := by
  induction l with
  | nil => simp
  | cons x t ih => simp [ih]

theorem getD_length_append (l : List Nat) (a b : Nat) :
    (l ++ [a, b]).getD l.length 0 = a := by
  induction l with
  | nil => simp
  | cons x t ih => simpa using ih

theorem getD_length_append_one (l : List Nat) (a b : Nat) :
    (l ++ [a, b]).getD (l.length + 1) 0 = b := by
  induction l with
  | nil => simp
  | cons x t ih => simpa using ih

theorem crcRound_lt (c : Nat) (h : c < 65536) : crcRound c < 65536 := by
  unfold crcRound
  split
  · have hx : c >>> 1 ^^^ 0xA001 < 2 ^ 16 :=
      Nat.bitwise_lt (by rw [Nat.shiftRight_eq_div_pow]; norm_num; omega)
        (by norm_num)
    norm_num at hx
    omega
  · rw [Nat.shiftRight_eq_div_pow]; omega

theorem crcRounds_lt (j : Nat) : ∀ c : Nat, c < 65536 → crcRounds c j < 65536 := by
  induction j with
  | zero => intro c h; exact h
  | succ k ih => intro c h; exact ih (crcRound c) (crcRound_lt c h)

theorem crc_foldl_lt (l : List Nat) :
    ∀ c : Nat, c < 65536 → (∀ b ∈ l, b < 65536) →
      l.foldl (fun c b => crcRounds (c ^^^ b) 8) c < 65536 := by
  induction l with
  | nil => intro c hc _; exact hc
  | cons x t ih =>
    intro c hc hb
    have hx : c ^^^ x < 2 ^ 16 :=
      Nat.bitwise_lt (by norm_num; omega)
        (by have := hb x (by simp); norm_num; omega)
    norm_num at hx
    exact ih _ (crcRounds_lt 8 _ hx) (fun b hbm => hb b (by simp [hbm]))

theorem crc_lt (l : List Nat) (h : ∀ b ∈ l, b < 65536) : crc l < 65536 :=
  crc_foldl_lt l 0xFFFF (by norm_num) h

theorem dataBlock_mem_lt (l : List Nat) : ∀ b ∈ dataBlock l, b < 256 := by
  induction l with
  | nil => simp [dataBlock]
  | cons v t ih =>
    intro b hb
    simp only [dataBlock, List.mem_cons] at hb
    rcases hb with h | h | h
    · subst h; omega
    · subst h; omega
    · exact ih b h

theorem dataBlockSuffix_mem_lt (suffix values : List Nat)
    (hs : ∀ b ∈ suffix, b < 256) : ∀ b ∈ dataBlockSuffix suffix values, b < 256 := by
  intro b hb
  simp only [dataBlockSuffix, List.mem_append, List.mem_singleton] at hb
  rcases hb with (h | h) | h
  · exact dataBlock_mem_lt _ b h
  · subst h; omega
  · exact hs b h

theorem data_mem_lt (q : Query) (d : List Nat) (hd : q.data = some d) :
    ∀ b ∈ d, b < 256 := by
  simp only [Query.data, Query.dataStep] at hd
  repeat' split at hd
  all_goals
  first
    | exact Option.noConfusion hd
    | (injection hd with hd
       subst hd
       first
         | exact dataBlock_mem_lt _
         | exact dataBlockSuffix_mem_lt _ _ (dataBlock_mem_lt _)
         | exact dataBlockSuffix_mem_lt _ _
             (fun b hb => dataBlock_mem_lt _ b (List.take_subset _ _ hb)))

theorem exact_implies_wrap (q : Query) (h : specValidExact q = true) :
    specValidWrap q = true := by
  obtain ⟨fc, sid, a, qty, vals⟩ := q
  by_cases h1 : fc = 1
  · subst h1; simp [specValidExact] at h; simp [specValidWrap]; omega
  by_cases h2 : fc = 2
  · subst h2; simp [specValidExact] at h; simp [specValidWrap]; omega
  by_cases h3 : fc = 3
  · subst h3; simp [specValidExact] at h; simp [specValidWrap]; omega
  by_cases h4 : fc = 4
  · subst h4; simp [specValidExact] at h; simp [specValidWrap]; omega
  by_cases h5 : fc = 5
  · subst h5; simp [specValidExact] at h; simp [specValidWrap]; omega
  by_cases h6 : fc = 6
  · subst h6; simp [specValidExact] at h; simp [specValidWrap]; omega
  by_cases h15 : fc = 15
  · subst h15; simp [specValidExact] at h; simp [specValidWrap]; omega
  by_cases h16 : fc = 16
  · subst h16; simp [specValidExact] at h; simp [specValidWrap]; omega
  by_cases h22 : fc = 22
  · subst h22; simp [specValidExact] at h; simp [specValidWrap]; omega
  · simp [specValidExact, h1, h2, h3, h4, h5, h6, h15, h16, h22] at h

/-- Under the spec validity table, the request body is at most 255 bytes. -/
theorem data_length_le_255 (q : Query) (h : specValidExact q = true) :
    ∃ d, q.data = some d ∧ d.length ≤ 255 := by
  have hv : q.IsValid = true := (isValid_iff_wrap q).mpr (exact_implies_wrap q h)
  obtain ⟨fc, sid, a, qty, vals⟩ := q
  by_cases h1 : fc = 1
  · subst h1
    simp only [Query.data, Query.dataStep, hv, Bool.not_true,
      isWriteMultipleFunction, isWriteSingleFunction, FunctionWriteMultipleCoils,
      FunctionWriteMultipleRegisters, FunctionWriteSingleCoil,
      FunctionWriteSingleRegister, FunctionMaskWriteRegister]
    norm_num
    simp [dataBlock]
  by_cases h2 : fc = 2
  · subst h2
    simp only [Query.data, Query.dataStep, hv, Bool.not_true,
      isWriteMultipleFunction, isWriteSingleFunction, FunctionWriteMultipleCoils,
      FunctionWriteMultipleRegisters, FunctionWriteSingleCoil,
      FunctionWriteSingleRegister, FunctionMaskWriteRegister]
    norm_num
    simp [dataBlock]
  by_cases h3 : fc = 3
  · subst h3
    simp only [Query.data, Query.dataStep, hv, Bool.not_true,
      isWriteMultipleFunction, isWriteSingleFunction, FunctionWriteMultipleCoils,
      FunctionWriteMultipleRegisters, FunctionWriteSingleCoil,
      FunctionWriteSingleRegister, FunctionMaskWriteRegister]
    norm_num
    simp [dataBlock]
  by_cases h4 : fc = 4
  · subst h4
    simp only [Query.data, Query.dataStep, hv, Bool.not_true,
      isWriteMultipleFunction, isWriteSingleFunction, FunctionWriteMultipleCoils,
      FunctionWriteMultipleRegisters, FunctionWriteSingleCoil,
      FunctionWriteSingleRegister, FunctionMaskWriteRegister]
    norm_num
    simp [dataBlock]
  by_cases h5 : fc = 5
  · subst h5
    simp only [Query.data, Query.dataStep, hv, Bool.not_true,
      isWriteMultipleFunction, isWriteSingleFunction, FunctionWriteMultipleCoils,
      FunctionWriteMultipleRegisters, FunctionWriteSingleCoil,
      FunctionWriteSingleRegister, FunctionMaskWriteRegister]
    norm_num
    split <;> norm_num <;> simp [dataBlock]
  by_cases h6 : fc = 6
  · subst h6
    simp only [Query.data, Query.dataStep, hv, Bool.not_true,
      isWriteMultipleFunction, isWriteSingleFunction, FunctionWriteMultipleCoils,
      FunctionWriteMultipleRegisters, FunctionWriteSingleCoil,
      FunctionWriteSingleRegister, FunctionMaskWriteRegister]
    norm_num
    simp [dataBlock]
  by_cases h15 : fc = 15
  · subst h15
    simp [specValidExact] at h
    simp only [Query.data, Query.dataStep, hv, Bool.not_true,
      isWriteMultipleFunction, isWriteSingleFunction, FunctionWriteMultipleCoils,
      FunctionWriteMultipleRegisters, FunctionWriteSingleCoil,
      FunctionWriteSingleRegister, FunctionMaskWriteRegister]
    norm_num
    simp [dataBlockSuffix, dataBlock, List.length_take]
    by_cases hm : qty % 8 = 0 <;> simp [hm] <;> omega
  by_cases h16 : fc = 16
  · subst h16
    simp [specValidExact] at h
    simp only [Query.data, Query.dataStep, hv, Bool.not_true,
      isWriteMultipleFunction, isWriteSingleFunction, FunctionWriteMultipleCoils,
      FunctionWriteMultipleRegisters, FunctionWriteSingleCoil,
      FunctionWriteSingleRegister, FunctionMaskWriteRegister]
    norm_num
    simp [dataBlockSuffix, dataBlock, dataBlock_length]
    omega
  by_cases h22 : fc = 22
  · subst h22
    simp only [Query.data, Query.dataStep, hv, Bool.not_true,
      isWriteMultipleFunction, isWriteSingleFunction, FunctionWriteMultipleCoils,
      FunctionWriteMultipleRegisters, FunctionWriteSingleCoil,
      FunctionWriteSingleRegister, FunctionMaskWriteRegister]
    norm_num
    simp [dataBlock]
  · exfalso
    simp [specValidExact, h1, h2, h3, h4, h5, h6, h15, h16, h22] at h

/-- C4: for every query satisfying the spec validity table, with non-zero
slave id, the RTU ADU is [slaveID, functionCode, body] followed by the
CRC-16 of those bytes (polynomial 0xA001, seed 0xFFFF) as a 2-byte
little-endian suffix; every ADU so generated passes the receiver-side
checksum check; and any received frame failing that check is rejected with
the BadChecksum error. -/
theorem rtu_adu_roundtrip :
    (∀ q : Query, q.WF → specValidExact q = true → q.SlaveID ≠ 0 →
      ∃ d, q.data = some d ∧
        RTUPackager.generateADU q =
          some ((q.SlaveID :: q.FunctionCode % 256 :: d) ++
            [crc (q.SlaveID :: q.FunctionCode % 256 :: d) % 256,
             crc (q.SlaveID :: q.FunctionCode % 256 :: d) / 256 % 256]) ∧
        rtuVerifyChecksum ((q.SlaveID :: q.FunctionCode % 256 :: d) ++
            [crc (q.SlaveID :: q.FunctionCode % 256 :: d) % 256,
             crc (q.SlaveID :: q.FunctionCode % 256 :: d) / 256 % 256]) = none) ∧
    (∀ r : List Nat,
      crc (r.take (r.length - 2)) ≠
        r.getD (r.length - 2) 0 + 256 * r.getD (r.length - 1) 0 →
      rtuVerifyChecksum r = some .badChecksum) := by
  constructor
  · intro q hwf hsv hs0
    obtain ⟨d, hd, hdle⟩ := data_length_le_255 q hsv
    refine ⟨d, hd, ?_, ?_⟩
    · have hnotlong : ¬ d.length + 4 > MaxRTUSize := by
        simp [MaxRTUSize]; omega
      simp [RTUPackager.generateADU, hd, hs0, hnotlong]
    · have hbytes : ∀ b ∈ q.SlaveID :: q.FunctionCode % 256 :: d, b < 65536 := by
        intro b hb
        simp only [List.mem_cons] at hb
        rcases hb with h | h | h
        · subst h; exact lt_trans hwf.1 (by norm_num)
        · subst h; omega
        · exact lt_trans (data_mem_lt q d hd b h) (by norm_num)
      have hc : crc (q.SlaveID :: q.FunctionCode % 256 :: d) < 65536 :=
        crc_lt _ hbytes
      set pkt := q.SlaveID :: q.FunctionCode % 256 :: d with hpkt
      have hL2 : (pkt ++ [crc pkt % 256, crc pkt / 256 % 256]).length - 2 =
          pkt.length := by simp
      have hL1 : (pkt ++ [crc pkt % 256, crc pkt / 256 % 256]).length - 1 =
          pkt.length + 1 := by simp
      rw [rtuVerifyChecksum, hL2, hL1, take_length_append, getD_length_append,
        getD_length_append_one, if_pos]
      rw [beq_iff_eq]
      omega
  · intro r hne
    rw [rtuVerifyChecksum, if_neg]
    rw [beq_iff_eq]
    exact hne

/-- C4 witness. -/
theorem rtu_adu_roundtrip_witness :
    ∃ d, (Query.mk FunctionReadCoils 1 0 1 []).data = some d ∧
      RTUPackager.generateADU (Query.mk FunctionReadCoils 1 0 1 []) =
        some ((1 :: 1 :: d) ++
          [crc (1 :: 1 :: d) % 256, crc (1 :: 1 :: d) / 256 % 256]) ∧
      rtuVerifyChecksum ((1 :: 1 :: d) ++
          [crc (1 :: 1 :: d) % 256, crc (1 :: 1 :: d) / 256 % 256]) = none :=
  rtu_adu_roundtrip.1 (Query.mk FunctionReadCoils 1 0 1 [])
    (by decide) (by decide) (by decide)
